import Mathlib

/-!
Shallow embedding of the reconcilers in
`cloud/services/publicips/publicips.go`, `cloud/services/vmextensions/vmextensions.go`
and the vmssextensions package, together with theorems about their behaviour.

Side effects are made explicit: each operation returns the Go `error`
result (`Option GoError`, `none` meaning `nil`) together with the ordered
trace of external effects it performed (API calls and condition updates).
-/

/-- Go errors as produced by this code: an azure API error (carrying
whether `azure.ResourceNotFound` holds of it), an `errors.New`, or an
`errors.Wrap`/`errors.Wrapf` of a cause with a context message. -/
inductive GoError where
  | azure (notFound : Bool) (msg : String)
  | basic (msg : String)
  | wrapped (context : String) (cause : GoError)
deriving DecidableEq, Repr

/-- `azure.ResourceNotFound`: whether the error is an API not-found error. -/
def resourceNotFound : GoError → Bool
  | GoError.azure nf _ => nf
  | _ => false

/-- `to.String`: dereference a `*string`, with `nil` read as `""`. -/
def toStr : Option String → String
  | none => ""
  | some s => s

/-- `compute.ProvisioningStateCreating`. -/
def ProvisioningStateCreating : String := "Creating"

/-- `compute.ProvisioningStateSucceeded`. -/
def ProvisioningStateSucceeded : String := "Succeeded"

/-- `compute.ProvisioningStateFailed`. -/
def ProvisioningStateFailed : String := "Failed"

/-- The observed part of an extension returned by `client.Get`: its
`ProvisioningState` pointer. -/
structure ExtensionView where
  provisioningState : Option String
deriving DecidableEq, Repr

/-- Result of a `client.Get` call: the extension together with the Go
error value (`(existing, err)` with the error made explicit). -/
inductive GetResult where
  | ok (existing : ExtensionView)
  | err (e : GoError)
deriving DecidableEq, Repr

/-- `compute.VirtualMachineExtensionProperties` as populated by the VM
extension reconciler. -/
structure VirtualMachineExtensionProperties where
  publisher : Option String
  type : Option String
  typeHandlerVersion : Option String
  settings : Option String
  protectedSettings : Option String
deriving DecidableEq, Repr

/-- `compute.VirtualMachineExtension` creation payload. -/
structure VirtualMachineExtension where
  properties : Option VirtualMachineExtensionProperties
  location : Option String
deriving DecidableEq, Repr

/-- `azure.VMExtensionSpec`: the fields read by the VM extension
reconciler (name, parent VM, publisher, version, protected settings). -/
structure VMExtensionSpec where
  name : String
  vmName : String
  publisher : String
  version : String
  protectedSettings : Option String
deriving DecidableEq, Repr

/-- `azure.VMSSExtensionSpec`: the fields read by the scale-set extension
reconciler (name and parent scale set). -/
structure VMSSExtensionSpec where
  name : String
  scaleSetName : String
deriving DecidableEq, Repr

/-- External effects of the extension reconcilers: a `Get` call, a
`CreateOrUpdate` call, or a `SetCondition` on the scope. The first two are
API calls; `setCondition` is a local status update on the scope object. -/
inductive Effect where
  | get (resourceGroup parent name : String)
  | createOrUpdate (resourceGroup parent name : String) (payload : VirtualMachineExtension)
  | setCondition (condType reason severity : String) (status : Bool)
deriving DecidableEq, Repr

/-- Whether an effect is a mutating (create/update/delete) API call. -/
def Effect.isMutating : Effect → Bool
  | Effect.createOrUpdate _ _ _ _ => true
  | _ => false

/-- Whether an effect is a `SetCondition` update. -/
def Effect.isCondition : Effect → Bool
  | Effect.setCondition _ _ _ _ => true
  | _ => false

/-- Run a per-spec step over a list of specs, stopping at the first step
that returns an error (a non-`none` first component), concatenating the
effect traces: the shape of both extension `Reconcile` loops. -/
def runSteps {α : Type} (step : α → Option GoError × List Effect) :
    List α → Option GoError × List Effect
  | [] => (none, [])
  | x :: rest =>
    match step x with
    | (some e, t) => (some e, t)
    | (none, t) =>
      let r := runSteps step rest
      (r.1, t ++ r.2)

/-- `infrav1.BootstrapSucceededCondition`. -/
def BootstrapSucceededCondition : String := "BootstrapSucceeded"

/-- `infrav1.BootstrapInProgressReason`. -/
def BootstrapInProgressReason : String := "BootstrapInProgress"

/-- `infrav1.BootstrapFailedReason`. -/
def BootstrapFailedReason : String := "BootstrapFailed"

/-- `clusterv1.ConditionSeverityInfo`. -/
def ConditionSeverityInfo : String := "Info"

/-- `clusterv1.ConditionSeverityError`. -/
def ConditionSeverityError : String := "Error"

namespace vmextensions

/-- The azure client of the VM extension service, modelled as oracles for
its two calls (arguments: resource group, VM name, extension name). -/
structure Client where
  get : String → String → String → GetResult
  createOrUpdate : String → String → String → VirtualMachineExtension → Option GoError

/-- The `VMExtensionScope` data the reconciler reads: resource group,
location and the extension specs. -/
structure Scope where
  resourceGroup : String
  location : String
  vmExtensionSpecs : List VMExtensionSpec
deriving Repr

/-- The `compute.VirtualMachineExtension` literal built in
`Service.Reconcile` for a spec. -/
def buildExtension (spec : VMExtensionSpec) (location : String) : VirtualMachineExtension :=
  { properties := some
      { publisher := some spec.publisher
        type := some spec.name
        typeHandlerVersion := some spec.version
        settings := none
        protectedSettings := spec.protectedSettings }
    location := some location }

/-- One iteration of the `for` loop of `vmextensions.Service.Reconcile`:
a `Get`, then the `switch`. A `some` first component means the iteration
`return`s that error; `none` means the loop continues. `Creating` and
`Failed` return an error; `Succeeded`, any other state, and a
non-not-found `Get` error (which matches no case) continue; not-found
issues a `CreateOrUpdate` and continues unless that call fails. -/
def reconcileStep (rg loc : String) (cl : Client) (spec : VMExtensionSpec) :
    Option GoError × List Effect :=
  let g := Effect.get rg spec.vmName spec.name
  match cl.get rg spec.vmName spec.name with
  | GetResult.ok existing =>
    let st := toStr existing.provisioningState
    if st = ProvisioningStateCreating then
      (some (GoError.basic "extension still provisioning"), [g])
    else if st = ProvisioningStateSucceeded then
      (none, [g])
    else if st = ProvisioningStateFailed then
      (some (GoError.basic "extension state failed"), [g])
    else
      (none, [g])
  | GetResult.err e =>
    if resourceNotFound e then
      let payload := buildExtension spec loc
      let c := Effect.createOrUpdate rg spec.vmName spec.name payload
      match cl.createOrUpdate rg spec.vmName spec.name payload with
      | some ce =>
        (some (GoError.wrapped
          ("failed to create VM extension " ++ spec.name ++ " on VM " ++ spec.vmName
            ++ " in resource group " ++ rg) ce), [g, c])
      | none =>
        (none, [g, c])
    else
      (none, [g])

/-- The `for` loop of `vmextensions.Service.Reconcile`, over the spec list. -/
def reconcileLoop (rg loc : String) (cl : Client)
    (specs : List VMExtensionSpec) : Option GoError × List Effect :=
  runSteps (reconcileStep rg loc cl) specs

/-- `vmextensions.Service.Reconcile`. -/
def Reconcile (scope : Scope) (cl : Client) : Option GoError × List Effect :=
  reconcileLoop scope.resourceGroup scope.location cl scope.vmExtensionSpecs

/-- `vmextensions.Service.Delete`: returns `nil` and performs nothing. -/
def Delete (_scope : Scope) (_cl : Client) : Option GoError × List Effect :=
  (none, [])

end vmextensions

namespace vmssextensions

/-- The azure client of the scale-set extension service: only a `Get`
call (arguments: resource group, scale set name, extension name). -/
structure Client where
  get : String → String → String → GetResult

/-- The `VMSSExtensionScope` data the reconciler reads. -/
structure Scope where
  resourceGroup : String
  vmssExtensionSpecs : List VMSSExtensionSpec
deriving Repr

/-- One iteration of the `for` loop of `vmssextensions.Service.Reconcile`.
On a successful `Get` it switches on the provisioning state: `Succeeded`
sets the bootstrap condition true and continues, `Creating` and `Failed`
set it false and return an error, any other state does nothing. A
non-not-found `Get` error is returned wrapped; not-found does nothing (the
extension is applied as part of the scale-set model). -/
def reconcileStep (rg : String) (cl : Client) (spec : VMSSExtensionSpec) :
    Option GoError × List Effect :=
  let g := Effect.get rg spec.scaleSetName spec.name
  match cl.get rg spec.scaleSetName spec.name with
  | GetResult.ok existing =>
    let st := toStr existing.provisioningState
    if st = ProvisioningStateSucceeded then
      (none, [g, Effect.setCondition BootstrapSucceededCondition "" "" true])
    else if st = ProvisioningStateCreating then
      (some (GoError.basic "extension still provisioning"),
        [g, Effect.setCondition BootstrapSucceededCondition BootstrapInProgressReason
              ConditionSeverityInfo false])
    else if st = ProvisioningStateFailed then
      (some (GoError.basic "extension state failed"),
        [g, Effect.setCondition BootstrapSucceededCondition BootstrapFailedReason
              ConditionSeverityError false])
    else
      (none, [g])
  | GetResult.err e =>
    if resourceNotFound e then
      (none, [g])
    else
      (some (GoError.wrapped
        ("failed to get vm extension " ++ spec.name ++ " on scale set "
          ++ spec.scaleSetName) e), [g])

/-- The `for` loop of `vmssextensions.Service.Reconcile`, over the spec
list. -/
def reconcileLoop (rg : String) (cl : Client)
    (specs : List VMSSExtensionSpec) : Option GoError × List Effect :=
  runSteps (reconcileStep rg cl) specs

/-- `vmssextensions.Service.Reconcile`. -/
def Reconcile (scope : Scope) (cl : Client) : Option GoError × List Effect :=
  reconcileLoop scope.resourceGroup cl scope.vmssExtensionSpecs

/-- `vmssextensions.Service.Delete`: returns `nil` and performs nothing. -/
def Delete (_scope : Scope) (_cl : Client) : Option GoError × List Effect :=
  (none, [])

end vmssextensions

namespace publicips

/-- `network.PublicIPAddressSkuNameStandard`. -/
def PublicIPAddressSkuNameStandard : String := "Standard"

/-- `network.IPv4`. -/
def IPv4 : String := "IPv4"

/-- `network.Static`. -/
def Static : String := "Static"

/-- `network.PublicIPAddress` payload as populated by the reconciler. -/
structure PublicIPAddress where
  skuName : String
  name : Option String
  location : Option String
  ipAddressVersion : String
  ipAllocationMethod : String
  dnsDomainNameLabel : Option String
  dnsFqdn : Option String
deriving DecidableEq, Repr

/-- External API calls of the public IP service. -/
inductive IPCall where
  | createOrUpdate (resourceGroup name : String) (payload : PublicIPAddress)
  | delete (resourceGroup name : String)
deriving DecidableEq, Repr

/-- The network client, as oracles for its two calls. -/
structure Client where
  createOrUpdate : String → String → PublicIPAddress → Option GoError
  delete : String → String → Option GoError

/-- The scope data the public IP service reads: resource group, location
and the API server IP's name and DNS name. -/
structure Scope where
  resourceGroup : String
  location : String
  apiServerIPName : String
  apiServerIPDNSName : String
deriving Repr

/-- The payload built by `publicips.Service.Reconcile`. -/
def buildPublicIP (scope : Scope) : PublicIPAddress :=
  { skuName := PublicIPAddressSkuNameStandard
    name := some scope.apiServerIPName
    location := some scope.location
    ipAddressVersion := IPv4
    ipAllocationMethod := Static
    dnsDomainNameLabel := some scope.apiServerIPName.toLower
    dnsFqdn := some scope.apiServerIPDNSName }

/-- `publicips.Service.Reconcile`: one `CreateOrUpdate` of the standard,
static, IPv4 address; an error from the call is wrapped and returned. -/
def Reconcile (scope : Scope) (cl : Client) : Option GoError × List IPCall :=
  let ipName := scope.apiServerIPName
  let payload := buildPublicIP scope
  let call := IPCall.createOrUpdate scope.resourceGroup ipName payload
  match cl.createOrUpdate scope.resourceGroup ipName payload with
  | some e => (some (GoError.wrapped "cannot create public IP" e), [call])
  | none => (none, [call])

/-- `publicips.Service.Delete`: one `Delete` call; a not-found error is
treated as success, any other error is wrapped and returned. -/
def Delete (scope : Scope) (cl : Client) : Option GoError × List IPCall :=
  let ipName := scope.apiServerIPName
  let call := IPCall.delete scope.resourceGroup ipName
  match cl.delete scope.resourceGroup ipName with
  | some e =>
    if resourceNotFound e then (none, [call])
    else
      (some (GoError.wrapped
        ("failed to delete public IP " ++ ipName ++ " in resource group "
          ++ scope.resourceGroup) e), [call])
  | none => (none, [call])

end publicips

/-! ### Sample concrete values used by witnesses and counterexamples -/

/-- A sample VM extension spec. -/
def sampleVMSpec : VMExtensionSpec :=
  { name := "ext0", vmName := "vm0", publisher := "Pub", version := "2.0",
    protectedSettings := none }

/-- A sample scale-set extension spec. -/
def sampleVMSSSpec : VMSSExtensionSpec := { name := "ext0", scaleSetName := "ss0" }

/-- A VM extension client whose calls return fixed results. -/
def vmClientOf (r : GetResult) (c : Option GoError) : vmextensions.Client :=
  { get := fun _ _ _ => r, createOrUpdate := fun _ _ _ _ => c }

/-- A scale-set extension client whose `Get` returns a fixed result. -/
def vmssClientOf (r : GetResult) : vmssextensions.Client :=
  { get := fun _ _ _ => r }

/-- A public IP client whose calls return fixed results. -/
def ipClientOf (c d : Option GoError) : publicips.Client :=
  { createOrUpdate := fun _ _ _ => c, delete := fun _ _ => d }

/-! ### Helper lemmas: the loops process their list prefix-first -/

/-- Unfold one iteration of `runSteps`. -/
lemma runSteps_cons {α : Type} (step : α → Option GoError × List Effect)
    (x : α) (rest : List α) :
    runSteps step (x :: rest)
      = match step x with
        | (some e, t) => (some e, t)
        | (none, t) => ((runSteps step rest).1, t ++ (runSteps step rest).2) := by
  simp only [runSteps]

/-- A step that returns an error stops the loop there: the suffix after it
contributes nothing to the result or the trace. -/
lemma runSteps_cons_err {α : Type} (step : α → Option GoError × List Effect)
    (x : α) (rest : List α) (e : GoError) (t : List Effect)
    (h : step x = (some e, t)) :
    runSteps step (x :: rest) = (some e, t) := by
  rw [runSteps_cons, h]

/-- A step that continues contributes its trace and hands over to the
rest of the list. -/
lemma runSteps_cons_ok {α : Type} (step : α → Option GoError × List Effect)
    (x : α) (rest : List α) (t : List Effect)
    (h : step x = (none, t)) :
    runSteps step (x :: rest)
      = ((runSteps step rest).1, t ++ (runSteps step rest).2) := by
  rw [runSteps_cons, h]

/-- If the loop succeeds on a prefix, running it on the concatenation runs
the prefix and then the suffix, concatenating traces. -/
lemma runSteps_append {α : Type} (step : α → Option GoError × List Effect)
    (pre l : List α) (h : (runSteps step pre).1 = none) :
    runSteps step (pre ++ l)
      = ((runSteps step l).1, (runSteps step pre).2 ++ (runSteps step l).2) := by
  induction pre with
  | nil => simp [runSteps]
  | cons x pre ih =>
    rcases hs : step x with ⟨e | e, t⟩
    · rw [runSteps_cons_ok step x pre t hs] at h
      rw [List.cons_append, runSteps_cons_ok step x (pre ++ l) t hs,
        runSteps_cons_ok step x pre t hs]
      simp only at h
      rw [ih h]
      simp
    · rw [runSteps_cons_err step x pre e t hs] at h
      simp at h

/-! ### Evaluation of a single VM extension reconcile step -/

/-- VM variant, observed state `Creating`: the step returns the
"still provisioning" error after only the `Get`. -/
lemma vmStep_creating (rg loc : String) (cl : vmextensions.Client)
    (spec : VMExtensionSpec) (existing : ExtensionView)
    (hg : cl.get rg spec.vmName spec.name = GetResult.ok existing)
    (hst : toStr existing.provisioningState = ProvisioningStateCreating) :
    vmextensions.reconcileStep rg loc cl spec
      = (some (GoError.basic "extension still provisioning"),
         [Effect.get rg spec.vmName spec.name]) := by
  simp [vmextensions.reconcileStep, hg, hst]

/-- VM variant, observed state `Succeeded`: the step continues after only
the `Get`. -/
lemma vmStep_succeeded (rg loc : String) (cl : vmextensions.Client)
    (spec : VMExtensionSpec) (existing : ExtensionView)
    (hg : cl.get rg spec.vmName spec.name = GetResult.ok existing)
    (hst : toStr existing.provisioningState = ProvisioningStateSucceeded) :
    vmextensions.reconcileStep rg loc cl spec
      = (none, [Effect.get rg spec.vmName spec.name]) := by
  simp [vmextensions.reconcileStep, hg, hst, ProvisioningStateCreating,
    ProvisioningStateSucceeded]

/-- VM variant, observed state `Failed`: the step returns the terminal
"extension state failed" error after only the `Get`. -/
lemma vmStep_failed (rg loc : String) (cl : vmextensions.Client)
    (spec : VMExtensionSpec) (existing : ExtensionView)
    (hg : cl.get rg spec.vmName spec.name = GetResult.ok existing)
    (hst : toStr existing.provisioningState = ProvisioningStateFailed) :
    vmextensions.reconcileStep rg loc cl spec
      = (some (GoError.basic "extension state failed"),
         [Effect.get rg spec.vmName spec.name]) := by
  simp [vmextensions.reconcileStep, hg, hst, ProvisioningStateCreating,
    ProvisioningStateSucceeded, ProvisioningStateFailed]

/-- VM variant, `Get` not-found, create succeeds: the step issues the one
`CreateOrUpdate` and continues. -/
lemma vmStep_notFound_createOk (rg loc : String) (cl : vmextensions.Client)
    (spec : VMExtensionSpec) (e : GoError)
    (hg : cl.get rg spec.vmName spec.name = GetResult.err e)
    (hn : resourceNotFound e = true)
    (hcu : cl.createOrUpdate rg spec.vmName spec.name
      (vmextensions.buildExtension spec loc) = none) :
    vmextensions.reconcileStep rg loc cl spec
      = (none, [Effect.get rg spec.vmName spec.name,
          Effect.createOrUpdate rg spec.vmName spec.name
            (vmextensions.buildExtension spec loc)]) := by
  simp [vmextensions.reconcileStep, hg, hn, hcu]

/-- VM variant, `Get` not-found, create fails: the step issues the one
`CreateOrUpdate` and returns its error wrapped. -/
lemma vmStep_notFound_createErr (rg loc : String) (cl : vmextensions.Client)
    (spec : VMExtensionSpec) (e ce : GoError)
    (hg : cl.get rg spec.vmName spec.name = GetResult.err e)
    (hn : resourceNotFound e = true)
    (hcu : cl.createOrUpdate rg spec.vmName spec.name
      (vmextensions.buildExtension spec loc) = some ce) :
    vmextensions.reconcileStep rg loc cl spec
      = (some (GoError.wrapped
          ("failed to create VM extension " ++ spec.name ++ " on VM " ++ spec.vmName
            ++ " in resource group " ++ rg) ce),
         [Effect.get rg spec.vmName spec.name,
          Effect.createOrUpdate rg spec.vmName spec.name
            (vmextensions.buildExtension spec loc)]) := by
  simp [vmextensions.reconcileStep, hg, hn, hcu]

/-- VM variant, `Get` error other than not-found: no switch case matches,
so the step swallows the error and continues after only the `Get`. -/
lemma vmStep_otherErr (rg loc : String) (cl : vmextensions.Client)
    (spec : VMExtensionSpec) (e : GoError)
    (hg : cl.get rg spec.vmName spec.name = GetResult.err e)
    (hn : resourceNotFound e = false) :
    vmextensions.reconcileStep rg loc cl spec
      = (none, [Effect.get rg spec.vmName spec.name]) := by
  simp [vmextensions.reconcileStep, hg, hn]

/-! ### Evaluation of a single scale-set extension reconcile step -/

/-- Scale-set variant, observed state `Succeeded`: the step sets the
bootstrap condition true and continues; no API call besides the `Get`. -/
lemma vmssStep_succeeded (rg : String) (cl : vmssextensions.Client)
    (spec : VMSSExtensionSpec) (existing : ExtensionView)
    (hg : cl.get rg spec.scaleSetName spec.name = GetResult.ok existing)
    (hst : toStr existing.provisioningState = ProvisioningStateSucceeded) :
    vmssextensions.reconcileStep rg cl spec
      = (none, [Effect.get rg spec.scaleSetName spec.name,
          Effect.setCondition BootstrapSucceededCondition "" "" true]) := by
  simp [vmssextensions.reconcileStep, hg, hst]

/-- Scale-set variant, observed state `Creating`: the step sets the
bootstrap condition false (in progress) and returns the retryable error. -/
lemma vmssStep_creating (rg : String) (cl : vmssextensions.Client)
    (spec : VMSSExtensionSpec) (existing : ExtensionView)
    (hg : cl.get rg spec.scaleSetName spec.name = GetResult.ok existing)
    (hst : toStr existing.provisioningState = ProvisioningStateCreating) :
    vmssextensions.reconcileStep rg cl spec
      = (some (GoError.basic "extension still provisioning"),
         [Effect.get rg spec.scaleSetName spec.name,
          Effect.setCondition BootstrapSucceededCondition BootstrapInProgressReason
            ConditionSeverityInfo false]) := by
  simp [vmssextensions.reconcileStep, hg, hst, ProvisioningStateCreating,
    ProvisioningStateSucceeded]

/-- Scale-set variant, observed state `Failed`: the step sets the
bootstrap condition false (failed) and returns the terminal error. -/
lemma vmssStep_failed (rg : String) (cl : vmssextensions.Client)
    (spec : VMSSExtensionSpec) (existing : ExtensionView)
    (hg : cl.get rg spec.scaleSetName spec.name = GetResult.ok existing)
    (hst : toStr existing.provisioningState = ProvisioningStateFailed) :
    vmssextensions.reconcileStep rg cl spec
      = (some (GoError.basic "extension state failed"),
         [Effect.get rg spec.scaleSetName spec.name,
          Effect.setCondition BootstrapSucceededCondition BootstrapFailedReason
            ConditionSeverityError false]) := by
  simp [vmssextensions.reconcileStep, hg, hst, ProvisioningStateCreating,
    ProvisioningStateSucceeded, ProvisioningStateFailed]

/-- Scale-set variant, `Get` not-found: the step does nothing further and
continues. -/
lemma vmssStep_notFound (rg : String) (cl : vmssextensions.Client)
    (spec : VMSSExtensionSpec) (e : GoError)
    (hg : cl.get rg spec.scaleSetName spec.name = GetResult.err e)
    (hn : resourceNotFound e = true) :
    vmssextensions.reconcileStep rg cl spec
      = (none, [Effect.get rg spec.scaleSetName spec.name]) := by
  simp [vmssextensions.reconcileStep, hg, hn]

/-- Scale-set variant, `Get` error other than not-found: the step returns
the error wrapped with context. -/
lemma vmssStep_otherErr (rg : String) (cl : vmssextensions.Client)
    (spec : VMSSExtensionSpec) (e : GoError)
    (hg : cl.get rg spec.scaleSetName spec.name = GetResult.err e)
    (hn : resourceNotFound e = false) :
    vmssextensions.reconcileStep rg cl spec
      = (some (GoError.wrapped
          ("failed to get vm extension " ++ spec.name ++ " on scale set "
            ++ spec.scaleSetName) e),
         [Effect.get rg spec.scaleSetName spec.name]) := by
  simp [vmssextensions.reconcileStep, hg, hn]

/-! ### Claims -/

/-- C1 counterexample: in the VM variant, a `Get` error other than
not-found matches no switch case, so `Reconcile` swallows it and returns
`nil` — contradicting the claim that every such error is returned
(wrapped). Concretely: one spec, `Get` always returns a non-not-found
azure error, yet `Reconcile` returns no error. -/
theorem C1_counterexample :
    resourceNotFound (GoError.azure false "boom") = false
    ∧ (vmClientOf (GetResult.err (GoError.azure false "boom")) none).get "rg" "vm0" "ext0"
        = GetResult.err (GoError.azure false "boom")
    ∧ vmextensions.Reconcile
        { resourceGroup := "rg", location := "loc", vmExtensionSpecs := [sampleVMSpec] }
        (vmClientOf (GetResult.err (GoError.azure false "boom")) none)
        = (none, [Effect.get "rg" "vm0" "ext0"]) := by
  refine ⟨rfl, rfl, ?_⟩
  decide

/-- C1 (amended): a `Get` error other than not-found is returned wrapped
by the scale-set variant (stopping the pass at that spec); the VM variant
does not return an error for such a spec — it swallows the error and
continues with the remaining specs. -/
theorem C1_amended_theorem :
    (∀ (rg : String) (cl : vmssextensions.Client) (pre rest : List VMSSExtensionSpec)
       (spec : VMSSExtensionSpec) (e : GoError),
       (vmssextensions.reconcileLoop rg cl pre).1 = none →
       cl.get rg spec.scaleSetName spec.name = GetResult.err e →
       resourceNotFound e = false →
       vmssextensions.reconcileLoop rg cl (pre ++ spec :: rest)
         = (some (GoError.wrapped
             ("failed to get vm extension " ++ spec.name ++ " on scale set "
               ++ spec.scaleSetName) e),
            (vmssextensions.reconcileLoop rg cl pre).2
              ++ [Effect.get rg spec.scaleSetName spec.name]))
    ∧ (∀ (rg loc : String) (cl : vmextensions.Client) (rest : List VMExtensionSpec)
       (spec : VMExtensionSpec) (e : GoError),
       cl.get rg spec.vmName spec.name = GetResult.err e →
       resourceNotFound e = false →
       vmextensions.reconcileLoop rg loc cl (spec :: rest)
         = ((vmextensions.reconcileLoop rg loc cl rest).1,
            Effect.get rg spec.vmName spec.name
              :: (vmextensions.reconcileLoop rg loc cl rest).2)) := by
  constructor
  · intro rg cl pre rest spec e hpre hg hn
    unfold vmssextensions.reconcileLoop at hpre ⊢
    rw [runSteps_append _ pre _ hpre,
      runSteps_cons_err _ _ _ _ _ (vmssStep_otherErr rg cl spec e hg hn)]
  · intro rg loc cl rest spec e hg hn
    unfold vmextensions.reconcileLoop
    rw [runSteps_cons_ok _ _ _ _ (vmStep_otherErr rg loc cl spec e hg hn)]
    simp

/-- C1 witness: the amended claim at a concrete input — the scale-set
variant returns the wrapped error; the VM variant returns `nil`. -/
theorem C1_witness :
    vmssextensions.reconcileLoop "rg"
        (vmssClientOf (GetResult.err (GoError.azure false "boom"))) [sampleVMSSSpec]
      = (some (GoError.wrapped "failed to get vm extension ext0 on scale set ss0"
          (GoError.azure false "boom")),
         [Effect.get "rg" "ss0" "ext0"])
    ∧ vmextensions.reconcileLoop "rg" "loc"
        (vmClientOf (GetResult.err (GoError.azure false "boom")) none) [sampleVMSpec]
      = (none, [Effect.get "rg" "vm0" "ext0"]) := by
  constructor
  · have h := C1_amended_theorem.1 "rg"
      (vmssClientOf (GetResult.err (GoError.azure false "boom"))) [] [] sampleVMSSSpec
      (GoError.azure false "boom") rfl rfl rfl
    simpa [sampleVMSSSpec, vmssextensions.reconcileLoop, runSteps] using h
  · have h := C1_amended_theorem.2 "rg" "loc"
      (vmClientOf (GetResult.err (GoError.azure false "boom")) none) [] sampleVMSpec
      (GoError.azure false "boom") rfl rfl
    simpa [sampleVMSpec, vmextensions.reconcileLoop, runSteps] using h

/-- C2 counterexample: in the VM variant, an extension observed
`Succeeded` only gets logged — no readiness condition is set (the VM scope
has no condition setter), contradicting the claim that both variants set
the condition true. Concretely: one succeeded spec, `Reconcile` returns
`nil` with a trace holding only the `Get`, and no effect in the trace is a
condition update. -/
theorem C2_counterexample :
    (vmClientOf (GetResult.ok ⟨some "Succeeded"⟩) none).get "rg" "vm0" "ext0"
        = GetResult.ok ⟨some "Succeeded"⟩
    ∧ vmextensions.Reconcile
        { resourceGroup := "rg", location := "loc", vmExtensionSpecs := [sampleVMSpec] }
        (vmClientOf (GetResult.ok ⟨some "Succeeded"⟩) none)
        = (none, [Effect.get "rg" "vm0" "ext0"])
    ∧ (vmextensions.Reconcile
        { resourceGroup := "rg", location := "loc", vmExtensionSpecs := [sampleVMSpec] }
        (vmClientOf (GetResult.ok ⟨some "Succeeded"⟩) none)).2.all
          (fun eff => !Effect.isCondition eff) = true := by
  refine ⟨rfl, by decide, by decide⟩

/-- C2 (amended): for an extension observed `Succeeded`, the scale-set
variant sets the bootstrap condition true, and both variants issue no
mutating call for that spec and return no error because of it (the result
is that of the remaining specs); the VM variant sets no condition — it
only issues the `Get`. -/
theorem C2_amended_theorem :
    (∀ (rg : String) (cl : vmssextensions.Client) (pre rest : List VMSSExtensionSpec)
       (spec : VMSSExtensionSpec) (existing : ExtensionView),
       (vmssextensions.reconcileLoop rg cl pre).1 = none →
       cl.get rg spec.scaleSetName spec.name = GetResult.ok existing →
       toStr existing.provisioningState = ProvisioningStateSucceeded →
       vmssextensions.reconcileLoop rg cl (pre ++ spec :: rest)
         = ((vmssextensions.reconcileLoop rg cl rest).1,
            (vmssextensions.reconcileLoop rg cl pre).2
              ++ Effect.get rg spec.scaleSetName spec.name
              :: Effect.setCondition BootstrapSucceededCondition "" "" true
              :: (vmssextensions.reconcileLoop rg cl rest).2)
         ∧ Effect.isMutating (Effect.get rg spec.scaleSetName spec.name) = false
         ∧ Effect.isMutating
             (Effect.setCondition BootstrapSucceededCondition "" "" true) = false)
    ∧ (∀ (rg loc : String) (cl : vmextensions.Client) (rest : List VMExtensionSpec)
       (spec : VMExtensionSpec) (existing : ExtensionView),
       cl.get rg spec.vmName spec.name = GetResult.ok existing →
       toStr existing.provisioningState = ProvisioningStateSucceeded →
       vmextensions.reconcileLoop rg loc cl (spec :: rest)
         = ((vmextensions.reconcileLoop rg loc cl rest).1,
            Effect.get rg spec.vmName spec.name
              :: (vmextensions.reconcileLoop rg loc cl rest).2)
         ∧ (vmextensions.reconcileStep rg loc cl spec).2.all
             (fun eff => !Effect.isCondition eff) = true) := by
  constructor
  · intro rg cl pre rest spec existing hpre hg hst
    refine ⟨?_, rfl, rfl⟩
    unfold vmssextensions.reconcileLoop at hpre ⊢
    rw [runSteps_append _ pre _ hpre,
      runSteps_cons_ok _ _ _ _ (vmssStep_succeeded rg cl spec existing hg hst)]
    simp
  · intro rg loc cl rest spec existing hg hst
    constructor
    · unfold vmextensions.reconcileLoop
      rw [runSteps_cons_ok _ _ _ _ (vmStep_succeeded rg loc cl spec existing hg hst)]
      simp
    · rw [vmStep_succeeded rg loc cl spec existing hg hst]
      rfl

/-- C2 witness: the amended claim at a concrete input — the scale-set
variant sets the condition true; the VM variant only issues the `Get`. -/
theorem C2_witness :
    vmssextensions.reconcileLoop "rg"
        (vmssClientOf (GetResult.ok ⟨some "Succeeded"⟩)) [sampleVMSSSpec]
      = (none, [Effect.get "rg" "ss0" "ext0",
          Effect.setCondition BootstrapSucceededCondition "" "" true])
    ∧ vmextensions.reconcileLoop "rg" "loc"
        (vmClientOf (GetResult.ok ⟨some "Succeeded"⟩) none) [sampleVMSpec]
      = (none, [Effect.get "rg" "vm0" "ext0"]) := by
  constructor
  · have h := (C2_amended_theorem.1 "rg"
      (vmssClientOf (GetResult.ok ⟨some "Succeeded"⟩)) [] [] sampleVMSSSpec
      ⟨some "Succeeded"⟩ rfl rfl rfl).1
    simpa [sampleVMSSSpec, vmssextensions.reconcileLoop, runSteps] using h
  · have h := (C2_amended_theorem.2 "rg" "loc"
      (vmClientOf (GetResult.ok ⟨some "Succeeded"⟩) none) [] sampleVMSpec
      ⟨some "Succeeded"⟩ rfl rfl).1
    simpa [sampleVMSpec, vmextensions.reconcileLoop, runSteps] using h

/-- C3 counterexample: in the VM variant, an extension observed `Failed`
returns the terminal error but sets no readiness condition (the VM scope
has no condition setter), contradicting the claim that both variants set
the condition false. Concretely: one failed spec, the trace holds only the
`Get` and contains no condition update. -/
theorem C3_counterexample :
    (vmClientOf (GetResult.ok ⟨some "Failed"⟩) none).get "rg" "vm0" "ext0"
        = GetResult.ok ⟨some "Failed"⟩
    ∧ vmextensions.Reconcile
        { resourceGroup := "rg", location := "loc", vmExtensionSpecs := [sampleVMSpec] }
        (vmClientOf (GetResult.ok ⟨some "Failed"⟩) none)
        = (some (GoError.basic "extension state failed"),
           [Effect.get "rg" "vm0" "ext0"])
    ∧ (vmextensions.Reconcile
        { resourceGroup := "rg", location := "loc", vmExtensionSpecs := [sampleVMSpec] }
        (vmClientOf (GetResult.ok ⟨some "Failed"⟩) none)).2.all
          (fun eff => !Effect.isCondition eff) = true := by
  refine ⟨rfl, by decide, by decide⟩

/-- C3 (amended): for an extension observed `Failed`, both variants return
the terminal "extension state failed" error, ending the pass at that spec;
the scale-set variant additionally sets the bootstrap condition false with
the failure reason, while the VM variant sets no condition. -/
theorem C3_amended_theorem :
    (∀ (rg : String) (cl : vmssextensions.Client) (pre rest : List VMSSExtensionSpec)
       (spec : VMSSExtensionSpec) (existing : ExtensionView),
       (vmssextensions.reconcileLoop rg cl pre).1 = none →
       cl.get rg spec.scaleSetName spec.name = GetResult.ok existing →
       toStr existing.provisioningState = ProvisioningStateFailed →
       vmssextensions.reconcileLoop rg cl (pre ++ spec :: rest)
         = (some (GoError.basic "extension state failed"),
            (vmssextensions.reconcileLoop rg cl pre).2
              ++ [Effect.get rg spec.scaleSetName spec.name,
                  Effect.setCondition BootstrapSucceededCondition BootstrapFailedReason
                    ConditionSeverityError false]))
    ∧ (∀ (rg loc : String) (cl : vmextensions.Client) (pre rest : List VMExtensionSpec)
       (spec : VMExtensionSpec) (existing : ExtensionView),
       (vmextensions.reconcileLoop rg loc cl pre).1 = none →
       cl.get rg spec.vmName spec.name = GetResult.ok existing →
       toStr existing.provisioningState = ProvisioningStateFailed →
       vmextensions.reconcileLoop rg loc cl (pre ++ spec :: rest)
         = (some (GoError.basic "extension state failed"),
            (vmextensions.reconcileLoop rg loc cl pre).2
              ++ [Effect.get rg spec.vmName spec.name])) := by
  constructor
  · intro rg cl pre rest spec existing hpre hg hst
    unfold vmssextensions.reconcileLoop at hpre ⊢
    rw [runSteps_append _ pre _ hpre,
      runSteps_cons_err _ _ _ _ _ (vmssStep_failed rg cl spec existing hg hst)]
  · intro rg loc cl pre rest spec existing hpre hg hst
    unfold vmextensions.reconcileLoop at hpre ⊢
    rw [runSteps_append _ pre _ hpre,
      runSteps_cons_err _ _ _ _ _ (vmStep_failed rg loc cl spec existing hg hst)]

/-- C3 witness: the amended claim at a concrete input. -/
theorem C3_witness :
    vmssextensions.reconcileLoop "rg"
        (vmssClientOf (GetResult.ok ⟨some "Failed"⟩)) [sampleVMSSSpec]
      = (some (GoError.basic "extension state failed"),
         [Effect.get "rg" "ss0" "ext0",
          Effect.setCondition BootstrapSucceededCondition BootstrapFailedReason
            ConditionSeverityError false])
    ∧ vmextensions.reconcileLoop "rg" "loc"
        (vmClientOf (GetResult.ok ⟨some "Failed"⟩) none) [sampleVMSpec]
      = (some (GoError.basic "extension state failed"),
         [Effect.get "rg" "vm0" "ext0"]) := by
  constructor
  · have h := C3_amended_theorem.1 "rg"
      (vmssClientOf (GetResult.ok ⟨some "Failed"⟩)) [] [] sampleVMSSSpec
      ⟨some "Failed"⟩ rfl rfl rfl
    simpa [sampleVMSSSpec, vmssextensions.reconcileLoop, runSteps] using h
  · have h := C3_amended_theorem.2 "rg" "loc"
      (vmClientOf (GetResult.ok ⟨some "Failed"⟩) none) [] [] sampleVMSpec
      ⟨some "Failed"⟩ rfl rfl rfl
    simpa [sampleVMSpec, vmextensions.reconcileLoop, runSteps] using h

/-- Every effect of a scale-set reconcile step is non-mutating: the
scale-set variant only ever issues `Get` calls and condition updates. -/
lemma vmssStep_no_mutating (rg : String) (cl : vmssextensions.Client)
    (spec : VMSSExtensionSpec) :
    (vmssextensions.reconcileStep rg cl spec).2.all
      (fun eff => !Effect.isMutating eff) = true := by
  unfold vmssextensions.reconcileStep
  cases hg : cl.get rg spec.scaleSetName spec.name with
  | ok existing => simp only; split_ifs <;> rfl
  | err e => simp only; split_ifs <;> rfl

/-- If every step's trace satisfies a predicate everywhere, so does the
whole loop's trace. -/
lemma runSteps_all {α : Type} (step : α → Option GoError × List Effect)
    (p : Effect → Bool) (h : ∀ x, ((step x).2.all p) = true) (l : List α) :
    ((runSteps step l).2.all p) = true := by
  induction l with
  | nil => rfl
  | cons x rest ih =>
    rw [runSteps_cons]
    rcases hs : step x with ⟨e, t⟩
    have ht : t.all p = true := by have := h x; rw [hs] at this; exact this
    cases e with
    | none => simp [List.all_append, ht, ih]
    | some e => simpa using ht

/-- C4: for an extension observed `Creating`, both variants stop the pass
with the retryable "extension still provisioning" error, and the effects
issued for that spec contain no mutating (create/update/delete) call —
only the `Get` (and, in the scale-set variant, the in-progress condition
update). -/
theorem C4_theorem :
    (∀ (rg loc : String) (cl : vmextensions.Client) (pre rest : List VMExtensionSpec)
       (spec : VMExtensionSpec) (existing : ExtensionView),
       (vmextensions.reconcileLoop rg loc cl pre).1 = none →
       cl.get rg spec.vmName spec.name = GetResult.ok existing →
       toStr existing.provisioningState = ProvisioningStateCreating →
       vmextensions.reconcileLoop rg loc cl (pre ++ spec :: rest)
         = (some (GoError.basic "extension still provisioning"),
            (vmextensions.reconcileLoop rg loc cl pre).2
              ++ [Effect.get rg spec.vmName spec.name])
       ∧ (vmextensions.reconcileStep rg loc cl spec).2.all
           (fun eff => !Effect.isMutating eff) = true)
    ∧ (∀ (rg : String) (cl : vmssextensions.Client) (pre rest : List VMSSExtensionSpec)
       (spec : VMSSExtensionSpec) (existing : ExtensionView),
       (vmssextensions.reconcileLoop rg cl pre).1 = none →
       cl.get rg spec.scaleSetName spec.name = GetResult.ok existing →
       toStr existing.provisioningState = ProvisioningStateCreating →
       vmssextensions.reconcileLoop rg cl (pre ++ spec :: rest)
         = (some (GoError.basic "extension still provisioning"),
            (vmssextensions.reconcileLoop rg cl pre).2
              ++ [Effect.get rg spec.scaleSetName spec.name,
                  Effect.setCondition BootstrapSucceededCondition BootstrapInProgressReason
                    ConditionSeverityInfo false])
       ∧ (vmssextensions.reconcileStep rg cl spec).2.all
           (fun eff => !Effect.isMutating eff) = true) := by
  constructor
  · intro rg loc cl pre rest spec existing hpre hg hst
    constructor
    · unfold vmextensions.reconcileLoop at hpre ⊢
      rw [runSteps_append _ pre _ hpre,
        runSteps_cons_err _ _ _ _ _ (vmStep_creating rg loc cl spec existing hg hst)]
    · rw [vmStep_creating rg loc cl spec existing hg hst]
      rfl
  · intro rg cl pre rest spec existing hpre hg hst
    constructor
    · unfold vmssextensions.reconcileLoop at hpre ⊢
      rw [runSteps_append _ pre _ hpre,
        runSteps_cons_err _ _ _ _ _ (vmssStep_creating rg cl spec existing hg hst)]
    · exact vmssStep_no_mutating rg cl spec

/-- C4 witness: the claim at a concrete input for both variants. -/
theorem C4_witness :
    vmextensions.reconcileLoop "rg" "loc"
        (vmClientOf (GetResult.ok ⟨some "Creating"⟩) none) [sampleVMSpec]
      = (some (GoError.basic "extension still provisioning"),
         [Effect.get "rg" "vm0" "ext0"])
    ∧ vmssextensions.reconcileLoop "rg"
        (vmssClientOf (GetResult.ok ⟨some "Creating"⟩)) [sampleVMSSSpec]
      = (some (GoError.basic "extension still provisioning"),
         [Effect.get "rg" "ss0" "ext0",
          Effect.setCondition BootstrapSucceededCondition BootstrapInProgressReason
            ConditionSeverityInfo false]) := by
  constructor
  · have h := (C4_theorem.1 "rg" "loc"
      (vmClientOf (GetResult.ok ⟨some "Creating"⟩) none) [] [] sampleVMSpec
      ⟨some "Creating"⟩ rfl rfl rfl).1
    simpa [sampleVMSpec, vmextensions.reconcileLoop, runSteps] using h
  · have h := (C4_theorem.2 "rg"
      (vmssClientOf (GetResult.ok ⟨some "Creating"⟩)) [] [] sampleVMSSSpec
      ⟨some "Creating"⟩ rfl rfl rfl).1
    simpa [sampleVMSSSpec, vmssextensions.reconcileLoop, runSteps] using h

/-- C5 counterexample: in the scale-set variant an absent extension (its
`Get` reports not-found) triggers no create call at all — the loop moves
on, leaving the extension to the scale-set model — contradicting the claim
that both variants issue exactly one create. Concretely: one spec whose
`Get` is a not-found error, and the trace holds only the `Get`, no
mutating call. -/
theorem C5_counterexample :
    resourceNotFound (GoError.azure true "404") = true
    ∧ vmssextensions.Reconcile
        { resourceGroup := "rg", vmssExtensionSpecs := [sampleVMSSSpec] }
        (vmssClientOf (GetResult.err (GoError.azure true "404")))
        = (none, [Effect.get "rg" "ss0" "ext0"])
    ∧ (vmssextensions.Reconcile
        { resourceGroup := "rg", vmssExtensionSpecs := [sampleVMSSSpec] }
        (vmssClientOf (GetResult.err (GoError.azure true "404")))).2.all
          (fun eff => !Effect.isMutating eff) = true := by
  refine ⟨rfl, by decide, by decide⟩

/-- C5 (amended): for an extension whose `Get` reports not-found, the VM
variant issues exactly one `CreateOrUpdate` for it, whose payload carries
the spec's publisher, its name as the extension type, and its version —
whether or not the create succeeds; the scale-set variant issues no create
call at all (its whole trace is free of mutating calls on every input). -/
theorem C5_amended_theorem :
    (∀ (rg loc : String) (cl : vmextensions.Client) (pre rest : List VMExtensionSpec)
       (spec : VMExtensionSpec) (e : GoError),
       (vmextensions.reconcileLoop rg loc cl pre).1 = none →
       cl.get rg spec.vmName spec.name = GetResult.err e →
       resourceNotFound e = true →
       (vmextensions.buildExtension spec loc).properties
         = some { publisher := some spec.publisher, type := some spec.name,
                  typeHandlerVersion := some spec.version, settings := none,
                  protectedSettings := spec.protectedSettings }
       ∧ (cl.createOrUpdate rg spec.vmName spec.name
            (vmextensions.buildExtension spec loc) = none →
          vmextensions.reconcileLoop rg loc cl (pre ++ spec :: rest)
            = ((vmextensions.reconcileLoop rg loc cl rest).1,
               (vmextensions.reconcileLoop rg loc cl pre).2
                 ++ Effect.get rg spec.vmName spec.name
                 :: Effect.createOrUpdate rg spec.vmName spec.name
                      (vmextensions.buildExtension spec loc)
                 :: (vmextensions.reconcileLoop rg loc cl rest).2))
       ∧ (∀ ce, cl.createOrUpdate rg spec.vmName spec.name
            (vmextensions.buildExtension spec loc) = some ce →
          vmextensions.reconcileLoop rg loc cl (pre ++ spec :: rest)
            = (some (GoError.wrapped
                ("failed to create VM extension " ++ spec.name ++ " on VM "
                  ++ spec.vmName ++ " in resource group " ++ rg) ce),
               (vmextensions.reconcileLoop rg loc cl pre).2
                 ++ [Effect.get rg spec.vmName spec.name,
                     Effect.createOrUpdate rg spec.vmName spec.name
                       (vmextensions.buildExtension spec loc)])))
    ∧ (∀ (rg : String) (cl : vmssextensions.Client) (specs : List VMSSExtensionSpec),
       ((vmssextensions.reconcileLoop rg cl specs).2.all
         (fun eff => !Effect.isMutating eff)) = true) := by
  constructor
  · intro rg loc cl pre rest spec e hpre hg hn
    refine ⟨rfl, ?_, ?_⟩
    · intro hcu
      unfold vmextensions.reconcileLoop at hpre ⊢
      rw [runSteps_append _ pre _ hpre,
        runSteps_cons_ok _ _ _ _ (vmStep_notFound_createOk rg loc cl spec e hg hn hcu)]
      simp
    · intro ce hcu
      unfold vmextensions.reconcileLoop at hpre ⊢
      rw [runSteps_append _ pre _ hpre,
        runSteps_cons_err _ _ _ _ _ (vmStep_notFound_createErr rg loc cl spec e ce hg hn hcu)]
  · intro rg cl specs
    exact runSteps_all _ _ (fun spec => vmssStep_no_mutating rg cl spec) specs

/-- C5 witness: the amended claim at a concrete input — the VM variant
issues the one create with the spec's publisher, type and version; the
scale-set variant's trace stays free of mutating calls. -/
theorem C5_witness :
    vmextensions.reconcileLoop "rg" "loc"
        (vmClientOf (GetResult.err (GoError.azure true "404")) none) [sampleVMSpec]
      = (none, [Effect.get "rg" "vm0" "ext0",
          Effect.createOrUpdate "rg" "vm0" "ext0"
            (vmextensions.buildExtension sampleVMSpec "loc")])
    ∧ (vmextensions.buildExtension sampleVMSpec "loc").properties
      = some { publisher := some "Pub", type := some "ext0",
               typeHandlerVersion := some "2.0", settings := none,
               protectedSettings := none }
    ∧ ((vmssextensions.reconcileLoop "rg"
        (vmssClientOf (GetResult.err (GoError.azure true "404")))
        [sampleVMSSSpec]).2.all (fun eff => !Effect.isMutating eff)) = true := by
  refine ⟨?_, ?_, ?_⟩
  · have h := ((C5_amended_theorem.1 "rg" "loc"
      (vmClientOf (GetResult.err (GoError.azure true "404")) none) [] [] sampleVMSpec
      (GoError.azure true "404") rfl rfl rfl).2).1 rfl
    simpa [sampleVMSpec, vmextensions.reconcileLoop, runSteps] using h
  · have h := (C5_amended_theorem.1 "rg" "loc"
      (vmClientOf (GetResult.err (GoError.azure true "404")) none) [] [] sampleVMSpec
      (GoError.azure true "404") rfl rfl rfl).1
    simpa [sampleVMSpec] using h
  · exact C5_amended_theorem.2 "rg"
      (vmssClientOf (GetResult.err (GoError.azure true "404"))) [sampleVMSSSpec]

/-- C6: public IP `Delete` treats a not-found error from the underlying
delete call as success: it returns `nil` after the one delete call, so
deleting an already-absent public IP is not an error. -/
theorem C6_theorem :
    ∀ (scope : publicips.Scope) (cl : publicips.Client) (e : GoError),
      cl.delete scope.resourceGroup scope.apiServerIPName = some e →
      resourceNotFound e = true →
      publicips.Delete scope cl
        = (none, [publicips.IPCall.delete scope.resourceGroup scope.apiServerIPName]) := by
  intro scope cl e hd hn
  simp [publicips.Delete, hd, hn]

/-- C6 witness: deleting with a client that reports not-found succeeds. -/
theorem C6_witness :
    publicips.Delete
      { resourceGroup := "rg", location := "loc", apiServerIPName := "ip0",
        apiServerIPDNSName := "ip0.example.com" }
      (ipClientOf none (some (GoError.azure true "404")))
      = (none, [publicips.IPCall.delete "rg" "ip0"]) := by
  exact C6_theorem
    { resourceGroup := "rg", location := "loc", apiServerIPName := "ip0",
      apiServerIPDNSName := "ip0.example.com" }
    (ipClientOf none (some (GoError.azure true "404")))
    (GoError.azure true "404") rfl rfl

/-- C7: public IP `Reconcile` always issues exactly one create-or-update
call, and its payload has SKU `Standard`, allocation method `Static`, IP
version `IPv4`, and a DNS domain-name label that is the lowercase form of
the resource name. -/
theorem C7_theorem :
    ∀ (scope : publicips.Scope) (cl : publicips.Client),
      (publicips.Reconcile scope cl).2
        = [publicips.IPCall.createOrUpdate scope.resourceGroup scope.apiServerIPName
            (publicips.buildPublicIP scope)]
      ∧ (publicips.buildPublicIP scope).skuName = publicips.PublicIPAddressSkuNameStandard
      ∧ (publicips.buildPublicIP scope).ipAllocationMethod = publicips.Static
      ∧ (publicips.buildPublicIP scope).ipAddressVersion = publicips.IPv4
      ∧ (publicips.buildPublicIP scope).dnsDomainNameLabel
          = some scope.apiServerIPName.toLower := by
  intro scope cl
  refine ⟨?_, rfl, rfl, rfl, rfl⟩
  rcases h : cl.createOrUpdate scope.resourceGroup scope.apiServerIPName
    (publicips.buildPublicIP scope) with _ | e <;>
    simp [publicips.Reconcile, h]

/-- C8: public IP `Reconcile` returns exactly the underlying
create-or-update error, wrapped with the "cannot create public IP"
context; it returns no error if and only if the underlying call returned
none — no error is swallowed, none is invented. -/
theorem C8_theorem :
    ∀ (scope : publicips.Scope) (cl : publicips.Client),
      (publicips.Reconcile scope cl).1
        = Option.map (GoError.wrapped "cannot create public IP")
            (cl.createOrUpdate scope.resourceGroup scope.apiServerIPName
              (publicips.buildPublicIP scope))
      ∧ ((publicips.Reconcile scope cl).1 = none
          ↔ cl.createOrUpdate scope.resourceGroup scope.apiServerIPName
              (publicips.buildPublicIP scope) = none) := by
  intro scope cl
  rcases h : cl.createOrUpdate scope.resourceGroup scope.apiServerIPName
    (publicips.buildPublicIP scope) with _ | e <;>
    simp [publicips.Reconcile, h]

/-- C9: extension `Delete` is a no-op in both variants: for every scope
and client it returns `nil` and performs no API call. -/
theorem C9_theorem :
    ∀ (scope : vmextensions.Scope) (cl : vmextensions.Client)
      (scope' : vmssextensions.Scope) (cl' : vmssextensions.Client),
      vmextensions.Delete scope cl = (none, [])
      ∧ vmssextensions.Delete scope' cl' = (none, []) := by
  intro scope cl scope' cl'
  exact ⟨rfl, rfl⟩

/-- C10: both extension `Reconcile` loops process the spec list in order.
With an empty list they return success with no effects. If every spec of
a prefix continues (the loop returns no error on the prefix), then a next
spec observed `Creating` or `Failed` — or, in the VM variant, an absent
spec whose create call fails — ends the pass there: the result and trace
are those of the prefix plus that one spec, so the specs after it are
neither inspected nor created. -/
theorem C10_theorem :
    (∀ (rg loc : String) (cl : vmextensions.Client),
       vmextensions.reconcileLoop rg loc cl [] = (none, []))
    ∧ (∀ (rg : String) (cl : vmssextensions.Client),
       vmssextensions.reconcileLoop rg cl [] = (none, []))
    ∧ (∀ (rg loc : String) (cl : vmextensions.Client) (pre rest : List VMExtensionSpec)
       (spec : VMExtensionSpec) (existing : ExtensionView),
       (vmextensions.reconcileLoop rg loc cl pre).1 = none →
       cl.get rg spec.vmName spec.name = GetResult.ok existing →
       toStr existing.provisioningState = ProvisioningStateCreating ∨
         toStr existing.provisioningState = ProvisioningStateFailed →
       vmextensions.reconcileLoop rg loc cl (pre ++ spec :: rest)
         = (some (GoError.basic
             (if toStr existing.provisioningState = ProvisioningStateCreating then
               "extension still provisioning" else "extension state failed")),
            (vmextensions.reconcileLoop rg loc cl pre).2
              ++ [Effect.get rg spec.vmName spec.name]))
    ∧ (∀ (rg loc : String) (cl : vmextensions.Client) (pre rest : List VMExtensionSpec)
       (spec : VMExtensionSpec) (e ce : GoError),
       (vmextensions.reconcileLoop rg loc cl pre).1 = none →
       cl.get rg spec.vmName spec.name = GetResult.err e →
       resourceNotFound e = true →
       cl.createOrUpdate rg spec.vmName spec.name
         (vmextensions.buildExtension spec loc) = some ce →
       vmextensions.reconcileLoop rg loc cl (pre ++ spec :: rest)
         = (some (GoError.wrapped
             ("failed to create VM extension " ++ spec.name ++ " on VM " ++ spec.vmName
               ++ " in resource group " ++ rg) ce),
            (vmextensions.reconcileLoop rg loc cl pre).2
              ++ [Effect.get rg spec.vmName spec.name,
                  Effect.createOrUpdate rg spec.vmName spec.name
                    (vmextensions.buildExtension spec loc)]))
    ∧ (∀ (rg : String) (cl : vmssextensions.Client) (pre rest : List VMSSExtensionSpec)
       (spec : VMSSExtensionSpec) (existing : ExtensionView),
       (vmssextensions.reconcileLoop rg cl pre).1 = none →
       cl.get rg spec.scaleSetName spec.name = GetResult.ok existing →
       toStr existing.provisioningState = ProvisioningStateCreating ∨
         toStr existing.provisioningState = ProvisioningStateFailed →
       (vmssextensions.reconcileLoop rg cl (pre ++ spec :: rest)).1.isSome = true
       ∧ (vmssextensions.reconcileLoop rg cl (pre ++ spec :: rest)).2
           = (vmssextensions.reconcileLoop rg cl pre).2
             ++ (vmssextensions.reconcileStep rg cl spec).2) := by
  refine ⟨fun _ _ _ => rfl, fun _ _ => rfl, ?_, ?_, ?_⟩
  · intro rg loc cl pre rest spec existing hpre hg hst
    rcases hst with hst | hst
    · rw [if_pos hst]
      unfold vmextensions.reconcileLoop at hpre ⊢
      rw [runSteps_append _ pre _ hpre,
        runSteps_cons_err _ _ _ _ _ (vmStep_creating rg loc cl spec existing hg hst)]
    · rw [if_neg (by rw [hst]; decide)]
      unfold vmextensions.reconcileLoop at hpre ⊢
      rw [runSteps_append _ pre _ hpre,
        runSteps_cons_err _ _ _ _ _ (vmStep_failed rg loc cl spec existing hg hst)]
  · intro rg loc cl pre rest spec e ce hpre hg hn hcu
    unfold vmextensions.reconcileLoop at hpre ⊢
    rw [runSteps_append _ pre _ hpre,
      runSteps_cons_err _ _ _ _ _ (vmStep_notFound_createErr rg loc cl spec e ce hg hn hcu)]
  · intro rg cl pre rest spec existing hpre hg hst
    rcases hst with hst | hst
    · unfold vmssextensions.reconcileLoop at hpre ⊢
      rw [runSteps_append _ pre _ hpre,
        runSteps_cons_err _ _ _ _ _ (vmssStep_creating rg cl spec existing hg hst)]
      refine ⟨rfl, ?_⟩
      rw [vmssStep_creating rg cl spec existing hg hst]
    · unfold vmssextensions.reconcileLoop at hpre ⊢
      rw [runSteps_append _ pre _ hpre,
        runSteps_cons_err _ _ _ _ _ (vmssStep_failed rg cl spec existing hg hst)]
      refine ⟨rfl, ?_⟩
      rw [vmssStep_failed rg cl spec existing hg hst]

/-- C10 witness: concrete instances — the empty list gives success with no
effects, and a first `Failed` spec after a succeeded one ends the VM pass
with only the two `Get` calls in the trace. -/
theorem C10_witness :
    vmextensions.reconcileLoop "rg" "loc"
      (vmClientOf (GetResult.ok ⟨some "Failed"⟩) none) [] = (none, [])
    ∧ vmssextensions.reconcileLoop "rg"
      (vmssClientOf (GetResult.ok ⟨some "Failed"⟩)) [] = (none, [])
    ∧ vmextensions.reconcileLoop "rg" "loc"
      (vmClientOf (GetResult.ok ⟨some "Failed"⟩) none) [sampleVMSpec]
      = (some (GoError.basic "extension state failed"),
         [Effect.get "rg" "vm0" "ext0"]) := by
  refine ⟨C10_theorem.1 "rg" "loc" (vmClientOf (GetResult.ok ⟨some "Failed"⟩) none),
    C10_theorem.2.1 "rg" (vmssClientOf (GetResult.ok ⟨some "Failed"⟩)), ?_⟩
  have h := C10_theorem.2.2.1 "rg" "loc"
    (vmClientOf (GetResult.ok ⟨some "Failed"⟩) none) [] [] sampleVMSpec
    ⟨some "Failed"⟩ rfl rfl (Or.inr rfl)
  simpa [sampleVMSpec, vmextensions.reconcileLoop, runSteps] using h
